import Mathlib

/-!
Verification of `src/data/homedy/clean_data.py` (real-estate listings cleaner).

The Python source is shallowly embedded: strings become `List Char` / `String`,
Python `None`-or-value becomes `Option`, a raised exception becomes
`Except.error`, and floating point numbers are idealised as rationals `ℚ`
(every numeric literal the parser builds is a finite decimal, and the only
arithmetic is sums, means and multiplication by 1000, which the idealisation
tracks exactly on the inputs of interest).  Each definition mirrors one
function or statement of the source file; the comments cite line numbers.
-/

namespace Homedy

deriving instance DecidableEq for Except

/-! ### Python character-level primitives -/

/-- The whitespace set of Python's `str.strip` and of `\s` in `re` patterns
(Unicode whitespace). -/
def isPySpace (c : Char) : Bool :=
  let n := c.toNat
  (0x9 ≤ n && n ≤ 0xD) || n == 0x20 || (0x1C ≤ n && n ≤ 0x1F) || n == 0x85 ||
  n == 0xA0 || n == 0x1680 || (0x2000 ≤ n && n ≤ 0x200A) || n == 0x2028 ||
  n == 0x2029 || n == 0x202F || n == 0x205F || n == 0x3000

/-- Python `str.lower` on one character, restricted to the scripts the cleaner
meets: ASCII, Latin-1 letters, Latin Extended-A ranges, Ơ/Ư, and the Latin
Extended Additional block that carries the Vietnamese letters (there the
Unicode simple lowercase of an uppercase letter is the next codepoint). -/
def pyLowerChar (c : Char) : Char :=
  let n := c.toNat
  if 0x41 ≤ n && n ≤ 0x5A then Char.ofNat (n + 0x20)
  else if 0xC0 ≤ n && n ≤ 0xDE && n != 0xD7 then Char.ofNat (n + 0x20)
  else if (0x100 ≤ n && n ≤ 0x137 || 0x14A ≤ n && n ≤ 0x177) && n % 2 == 0 then
    Char.ofNat (n + 1)
  else if (0x139 ≤ n && n ≤ 0x148 || 0x179 ≤ n && n ≤ 0x17E) && n % 2 == 1 then
    Char.ofNat (n + 1)
  else if n == 0x1A0 || n == 0x1AF then Char.ofNat (n + 1)
  else if 0x1E00 ≤ n && n ≤ 0x1EFF && n % 2 == 0 then Char.ofNat (n + 1)
  else c

/-- Python `str.lower`. -/
def pyLower (cs : List Char) : List Char := cs.map pyLowerChar

/-- Python `str.strip()`: drop leading and trailing whitespace. -/
def pyStrip (cs : List Char) : List Char :=
  ((cs.dropWhile isPySpace).reverse.dropWhile isPySpace).reverse

/-- `needle` is a prefix of `hay` (char-wise). -/
def listStartsWith : List Char → List Char → Bool
  | _, [] => true
  | [], _ :: _ => false
  | a :: as, b :: bs => a == b && listStartsWith as bs

/-- Python's substring test `needle in hay`. -/
def containsSub : List Char → List Char → Bool
  | [], needle => needle.isEmpty
  | h :: t, needle => listStartsWith (h :: t) needle || containsSub t needle

/-! ### `parse_price_to_million` (clean_data.py lines 22–103) -/

/-- The two price units of the source: `'ty'` (billion) and `'trieu'` (million). -/
inductive PriceUnit : Type
  | ty
  | trieu
deriving DecidableEq

/-- Line 34: `'thỏa' in low or 'thoa' in low or 'thỏa thuận' in low`
(codepoints exactly as in the source, NFC). -/
def thoaMarker (low : List Char) : Bool :=
  containsSub low ['t', 'h', 'ỏ', 'a'] || containsSub low ['t', 'h', 'o', 'a'] ||
  containsSub low ['t', 'h', 'ỏ', 'a', ' ', 't', 'h', 'u', 'ậ', 'n']

/-- Line 39: replace en dash and em dash by `'-'` and NBSP by `' '`
(all the replaced patterns are single characters). -/
def normHyphen (c : Char) : Char :=
  if c == '–' then '-' else if c == '—' then '-'
  else if c == ' ' then ' ' else c

/-- Line 41: the character class kept by
`re.sub(r"[^0-9,\.\-\styỷtyrtriệutrieuMHzKmBbKk]", ' ', raw)`;
the letter set spelled out in the source is
{t, y, ỷ, r, i, ệ, u, e, M, H, z, K, m, B, b, k}. -/
def allowedPriceChar (c : Char) : Bool :=
  c.isDigit || c == ',' || c == '.' || c == '-' || isPySpace c ||
  ['t', 'y', 'ỷ', 'r', 'i', 'ệ', 'u', 'e', 'M', 'H', 'z', 'K', 'm', 'B', 'b', 'k'].contains c

/-- Lines 39–42: hyphen normalisation, the `re.sub` replacing every
disallowed character by a space, and the final `strip()`. -/
def normalizePrice (raw0 : List Char) : List Char :=
  pyStrip ((raw0.map normHyphen).map (fun c => if allowedPriceChar c then c else ' '))

/-- Lines 45–49: explicit unit detection on the lowercased original text.
`re.search(r'ty|tỵ|tỷ', low)` looks for "ty", "tỵ" (U+1EF5) or "tỷ";
the million branch tests `'triệu' in low or 'trieu' in low` (the third
disjunct of line 48 is the decomposed "triêụ", ê followed by U+0323). -/
def detectUnit (low : List Char) : Option PriceUnit :=
  if containsSub low ['t', 'y'] || containsSub low ['t', 'ỵ'] ||
      containsSub low ['t', 'ỷ'] then some .ty
  else if containsSub low ['t', 'r', 'i', 'ệ', 'u'] ||
      containsSub low ['t', 'r', 'i', 'e', 'u'] ||
      containsSub low ['t', 'r', 'i', 'ê', '̣', 'u'] then some .trieu
  else none

/-- First alternative `\s*-\s*` of the split pattern of line 52, tried at the
current position: the greedy `\s*` must land on a `'-'`, and the trailing
`\s*` swallows the following whitespace.  Returns the rest of the input. -/
def sepAlt1 (cs : List Char) : Option (List Char) :=
  match cs.dropWhile isPySpace with
  | '-' :: rest => some (rest.dropWhile isPySpace)
  | _ => none

/-- Second alternative `\sto\s` of line 52. -/
def sepAlt2 : List Char → Option (List Char)
  | c0 :: 't' :: 'o' :: c3 :: rest =>
    if isPySpace c0 && isPySpace c3 then some rest else none
  | _ => none

/-- Third alternative `\s–\s` (en dash) of line 52. -/
def sepAlt3 : List Char → Option (List Char)
  | c0 :: '–' :: c2 :: rest =>
    if isPySpace c0 && isPySpace c2 then some rest else none
  | _ => none

/-- One attempt of the separator pattern of
`re.split(r'\s*-\s*|\sto\s|\s–\s', raw)` at the current position,
alternatives tried left to right as the regex engine does. -/
def matchSep (cs : List Char) : Option (List Char) :=
  ((sepAlt1 cs).orElse fun _ => (sepAlt2 cs).orElse fun _ => sepAlt3 cs)

theorem sepAlt1_length {cs r : List Char} (h : sepAlt1 cs = some r) :
    r.length < cs.length := by
  unfold sepAlt1 at h
  rcases hd : cs.dropWhile isPySpace with _ | ⟨c, rest⟩ <;> rw [hd] at h
  · exact absurd h (by simp)
  · by_cases hc : c = '-'
    · subst hc
      simp only [Option.some.injEq] at h
      subst h
      calc (rest.dropWhile isPySpace).length ≤ rest.length :=
            (List.dropWhile_suffix isPySpace).length_le
        _ < ('-' :: rest).length := by simp
        _ ≤ cs.length := hd ▸ (List.dropWhile_suffix isPySpace).length_le
    · exact absurd h (by simp [hc])

theorem sepAlt2_length {cs r : List Char} (h : sepAlt2 cs = some r) :
    r.length < cs.length := by
  unfold sepAlt2 at h
  split at h
  · split at h
    · simp only [Option.some.injEq] at h; subst h; simp; omega
    · exact absurd h (by simp)
  · exact absurd h (by simp)

theorem sepAlt3_length {cs r : List Char} (h : sepAlt3 cs = some r) :
    r.length < cs.length := by
  unfold sepAlt3 at h
  split at h
  · split at h
    · simp only [Option.some.injEq] at h; subst h; simp; omega
    · exact absurd h (by simp)
  · exact absurd h (by simp)

theorem matchSep_length {cs r : List Char} (h : matchSep cs = some r) :
    r.length < cs.length := by
  unfold matchSep at h
  rcases h1 : sepAlt1 cs with _ | r1
  · rw [h1] at h
    simp only [Option.orElse, Option.none_orElse] at h
    rcases h2 : sepAlt2 cs with _ | r2
    · rw [h2] at h
      simp only [Option.orElse, Option.none_orElse] at h
      exact sepAlt3_length h
    · rw [h2] at h
      simp only [Option.orElse, Option.some_orElse, Option.some.injEq] at h
      exact h ▸ sepAlt2_length h2
  · rw [h1] at h
    simp only [Option.orElse, Option.some_orElse, Option.some.injEq] at h
    exact h ▸ sepAlt1_length h1

/-- Scanner for `re.split`, structurally recursive on a fuel argument so that
it evaluates by kernel reduction.  By `matchSep_length` every separator match
consumes at least one character, so fuel equal to the input length always
suffices and the fuel-exhausted branch is unreachable from `splitPrices`. -/
def splitGo : Nat → List Char → List (List Char)
  | _, [] => [[]]
  | 0, cs => [cs]
  | fuel + 1, c :: rest =>
    match matchSep (c :: rest) with
    | some rest2 => [] :: splitGo fuel rest2
    | none =>
      match splitGo fuel rest with
      | [] => [[c]]
      | p :: ps => (c :: p) :: ps

/-- Line 52, `re.split(r'\s*-\s*|\sto\s|\s–\s', raw)`: scan left to right;
whenever the separator pattern matches, end the current piece there and
resume after the match. -/
def splitPrices (cs : List Char) : List (List Char) := splitGo cs.length cs

/-- Line 59, `re.search(r'[0-9]+[\.,]?[0-9]*', p)`: the first digit run,
an optional single `'.'` or `','`, and an optional second digit run.
Returns the two digit runs (the separator character does not influence the
numeric value the source later builds). -/
def firstNumToken (p : List Char) : Option (List Char × List Char) :=
  match p.dropWhile (fun c => !c.isDigit) with
  | [] => none
  | q@(_ :: _) =>
    let d1 := q.takeWhile Char.isDigit
    match q.dropWhile Char.isDigit with
    | c :: r2 =>
      if c == '.' || c == ',' then some (d1, r2.takeWhile Char.isDigit)
      else some (d1, [])
    | [] => some (d1, [])

/-- Numeric value of a digit run. -/
def digitsToNat (ds : List Char) : Nat :=
  ds.foldl (fun a c => 10 * a + (c.toNat - 48)) 0

/-- Lines 63–69: a lone comma is read as a decimal point, otherwise commas
are stripped; then `float(num_s)`.  On the token shapes the search of line 59
can produce, the resulting value is always `d1 + d2 / 10 ^ |d2|`. -/
def ratOfToken : List Char × List Char → ℚ
  | (d1, d2) =>
    if d2.isEmpty then (digitsToNat d1 : ℚ)
    else (digitsToNat d1 : ℚ) + (digitsToNat d2 : ℚ) / (10 : ℚ) ^ d2.length

/-- Lines 53–62: strip each piece, skip empty pieces, extract the first
number-like substring, skip pieces without one.  Char-level only. -/
def extractTokens (raw : List Char) : List (List Char × List Char) :=
  (splitPrices raw).filterMap fun p =>
    let p' := pyStrip p
    if p'.isEmpty then none else firstNumToken p'

/-- Lines 53–72: the numeric values of the extracted tokens. -/
def extractNums (raw : List Char) : List ℚ :=
  (extractTokens raw).map ratOfToken

/-- Line 80, `re.search(r'tri[eê]u|trieu', low)`: the re-scan for a million
word ("trieu" or "triêu"); line 82 re-scans for the billion words exactly as
line 46 did. -/
def rescanUnit (low : List Char) : Option PriceUnit :=
  if containsSub low ['t', 'r', 'i', 'e', 'u'] ||
      containsSub low ['t', 'r', 'i', 'ê', 'u'] then some .trieu
  else if containsSub low ['t', 'y'] || containsSub low ['t', 'ỵ'] ||
      containsSub low ['t', 'ỷ'] then some .ty
  else none

/-- Line 90: `'ty' in low or ' t ' in (' ' + low + ' ')`. -/
def standaloneT (low : List Char) : Bool :=
  containsSub low ['t', 'y'] || containsSub (' ' :: (low ++ [' '])) [' ', 't', ' ']

/-- Lines 78–94: unit inference when no unit was detected explicitly —
re-scan, then the numeric heuristics in the order of the source. -/
def inferUnit (low : List Char) (nums : List ℚ) : PriceUnit :=
  match rescanUnit low with
  | some u => u
  | none =>
    if nums.any fun x => decide ((1000 : ℚ) < x) then .trieu
    else if (nums.any fun x => decide (x < (100 : ℚ))) && standaloneT low then .ty
    else if nums.any fun x => decide (x ≤ (1000 : ℚ)) then .ty
    else .trieu

/-- Line 97, `statistics.mean`. -/
def qmean (l : List ℚ) : ℚ := l.sum / l.length

/-- `parse_price_to_million` on a string argument (lines 30–103).
Line 35 evaluates `raw.pd.dropna(...)` on a `str`, which raises
`AttributeError`; that branch is embedded as `Except.error`. -/
def parsePriceStr (s : String) : Except String (Option ℚ) :=
  if (pyStrip s.data).isEmpty then .ok none
  else if thoaMarker (pyLower (pyStrip s.data)) then .error "AttributeError"
  else if (extractNums (normalizePrice (pyStrip s.data))).isEmpty then .ok none
  else
    match (detectUnit (pyLower (pyStrip s.data))).getD
        (inferUnit (pyLower (pyStrip s.data))
          (extractNums (normalizePrice (pyStrip s.data)))) with
    | .ty => .ok (some (qmean (extractNums (normalizePrice (pyStrip s.data))) * 1000))
    | .trieu => .ok (some (qmean (extractNums (normalizePrice (pyStrip s.data)))))

/-- `parse_price_to_million` (lines 22–103): a non-`str` argument (line 28)
yields `None`. -/
def parse_price_to_million : Option String → Except String (Option ℚ)
  | none => .ok none
  | some s => parsePriceStr s


/-! ### `clean_location` (clean_data.py lines 106–113) -/

/-- Line 110, `re.sub(r'\s+', ' ', s)`: each maximal whitespace run becomes
one space. -/
def collapseWs : List Char → List Char
  | [] => []
  | [c] => if isPySpace c then [' '] else [c]
  | c :: d :: rest =>
    if isPySpace c && isPySpace d then collapseWs (d :: rest)
    else (if isPySpace c then ' ' else c) :: collapseWs (d :: rest)

/-- Line 112, `s.strip(' ,')`: strip spaces and commas from both ends. -/
def stripSpaceComma (cs : List Char) : List Char :=
  ((cs.dropWhile fun c => c == ' ' || c == ',').reverse.dropWhile
    fun c => c == ' ' || c == ',').reverse

/-- The char-level body of `clean_location`. -/
def cleanLocChars (cs : List Char) : List Char :=
  stripSpaceComma (collapseWs (pyStrip (cs.map fun c => if c == '\n' then ' ' else c)))

/-- `clean_location` (lines 106–113): `None` for a non-`str` input. -/
def clean_location : Option String → Option String
  | none => none
  | some s => some (String.mk (cleanLocChars s.data))

/-! ### `extract_district` (clean_data.py lines 116–127) -/

/-- Case-insensitive (`re.I`) literal prefix match, character by character. -/
def ciStartsWith : List Char → List Char → Bool
  | _, [] => true
  | [], _ :: _ => false
  | a :: as, b :: bs => pyLowerChar a == pyLowerChar b && ciStartsWith as bs

/-- The keyword alternation of line 121,
`(Quận|Quận|Qu?n|Huyện|Huyen|Thị xã|Thi xa|Thị xã|Thị Xã)`, in source order.
The second alternative is the decomposed form Q-u-â-U+0323-n; the literal
`Qu?n` (optional `u`) is expanded into its two concrete matches, the greedy
"Qun" before "Qn". -/
def districtKeywords : List (List Char) :=
  [['Q', 'u', 'ậ', 'n'],
   ['Q', 'u', 'â', '̣', 'n'],
   ['Q', 'u', 'n'], ['Q', 'n'],
   ['H', 'u', 'y', 'ệ', 'n'],
   ['H', 'u', 'y', 'e', 'n'],
   ['T', 'h', 'ị', ' ', 'x', 'ã'],
   ['T', 'h', 'i', ' ', 'x', 'a'],
   ['T', 'h', 'ị', ' ', 'x', 'ã'],
   ['T', 'h', 'ị', ' ', 'X', 'ã']]

/-- A character the name group `[^,\n]+` accepts. -/
def nameChar (c : Char) : Bool := !(c == ',' || c == '\n')

/-- Backtracking match of `\s+([^,\n]+)` at the current position: the greedy
`\s+` takes `l + 1` whitespace characters, largest first; the name group then
needs one acceptable character at index `l + 1` and extends greedily. -/
def matchTailGo (cs : List Char) : Nat → Option (List Char)
  | 0 => none
  | l + 1 =>
    match cs[l + 1]? with
    | some c =>
      if nameChar c then
        some (cs.take (l + 1) ++ (cs.drop (l + 1)).takeWhile nameChar)
      else matchTailGo cs l
    | none => matchTailGo cs l

/-- `\s+([^,\n]+)` against `cs`, starting from the maximal whitespace run. -/
def matchTail (cs : List Char) : Option (List Char) :=
  matchTailGo cs (cs.takeWhile isPySpace).length

/-- Try each keyword alternative in order at the current position; on a
keyword hit the tail `\s+([^,\n]+)` must also match, else the engine moves to
the next alternative.  Returns the whole match (`m.group(0)`). -/
def matchKwAt (cs : List Char) : List (List Char) → Option (List Char)
  | [] => none
  | kw :: kws =>
    if ciStartsWith cs kw then
      match matchTail (cs.drop kw.length) with
      | some t => some (cs.take kw.length ++ t)
      | none => matchKwAt cs kws
    else matchKwAt cs kws

/-- `re.search` of the pattern of line 121: leftmost position wins. -/
def searchAdmin : List Char → Option (List Char)
  | [] => none
  | c :: rest =>
    match matchKwAt (c :: rest) districtKeywords with
    | some m => some m
    | none => searchAdmin rest

/-- `extract_district` (lines 116–127): the stripped full match if the
pattern occurs, else the stripped text before the first comma, else the
stripped whole text; `None` for a non-`str` input. -/
def extract_district : Option String → Option String
  | none => none
  | some s =>
    match searchAdmin s.data with
    | some m => some (String.mk (pyStrip m))
    | none =>
      if s.data.contains ',' then
        some (String.mk (pyStrip (s.data.takeWhile fun c => c != ',')))
      else some (String.mk (pyStrip s.data))

/-! ### numeric field parsing in `main` (clean_data.py lines 136–204) -/

/-- Sign prefix of a Python float literal. -/
def takeSign : List Char → Bool × List Char
  | '-' :: r => (true, r)
  | '+' :: r => (false, r)
  | r => (false, r)

/-- `d1.d2` as a rational. -/
def mantissa (d1 d2 : List Char) : ℚ :=
  if d2.isEmpty then (digitsToNat d1 : ℚ)
  else (digitsToNat d1 : ℚ) + (digitsToNat d2 : ℚ) / (10 : ℚ) ^ d2.length

/-- Modelled float parsing, the common core of Python `float(str)` (used by
`safe_float`, lines 160–164) and `pandas.to_numeric(..., errors='coerce')`
(line 173): optional sign, decimal mantissa with at least one digit, optional
integer exponent.  The exotic accepted forms (`inf`, `nan`, underscore
separators) are treated as unparsable; `nan` parses to a missing value anyway
and the others do not occur in this data. -/
def pyFloatAux (cs : List Char) : Option ℚ :=
  let (neg, r1) := takeSign cs
  let d1 := r1.takeWhile Char.isDigit
  let r2 := r1.dropWhile Char.isDigit
  let (d2, r3) :=
    match r2 with
    | '.' :: r => (r.takeWhile Char.isDigit, r.dropWhile Char.isDigit)
    | _ => ([], r2)
  if d1.isEmpty && d2.isEmpty then none
  else
    match r3 with
    | [] => some (if neg then -mantissa d1 d2 else mantissa d1 d2)
    | e :: r4 =>
      if e == 'e' || e == 'E' then
        let (eneg, r5) := takeSign r4
        let ed := r5.takeWhile Char.isDigit
        if ed.isEmpty || !(r5.dropWhile Char.isDigit).isEmpty then none
        else
          let ex : ℤ := if eneg then -(digitsToNat ed : ℤ) else (digitsToNat ed : ℤ)
          some (if neg then -(mantissa d1 d2 * (10 : ℚ) ^ ex)
                else mantissa d1 d2 * (10 : ℚ) ^ ex)
      else none

/-- Float parsing after Python's leading/trailing whitespace stripping. -/
def pyFloat? (s : String) : Option ℚ := pyFloatAux (pyStrip s.data)

/-- `safe_float` (lines 160–164): missing stays missing (in the frame a
missing cell is NaN, and `float(nan)` is NaN, which `notna` later rejects). -/
def safe_float (x : Option String) : Option ℚ := x.bind pyFloat?

/-- Line 173, `pd.to_numeric(df['area_m2'], errors='coerce')`. -/
def areaParse (x : Option String) : Option ℚ := x.bind pyFloat?

/-- Lines 173–175: coerce the area to a number, then blank the invalid range
`(area <= 0) | (area > 2000)` (a NaN compares false and stays missing). -/
def cleanArea (x : Option String) : Option ℚ :=
  match areaParse x with
  | none => none
  | some q => if q ≤ 0 ∨ 2000 < q then none else some q

/-- `remove_emojis` (lines 130–133): drop the astral plane
`[\U00010000-\U0010ffff]`. -/
def remove_emojis (cs : List Char) : List Char :=
  cs.filter fun c => decide (c.toNat < 0x10000)

/-- Line 151, `df['title'].astype(str)`: a missing cell (NaN) prints as
`"nan"`. -/
def astypeStr : Option String → List Char
  | none => ['n', 'a', 'n']
  | some s => s.data

/-- Line 151: `remove_emojis(x).strip()` over the stringified title. -/
def cleanTitle (t : Option String) : String :=
  String.mk (pyStrip (remove_emojis (astypeStr t)))

/-- Lines 182–185: `fillna('')`, stringify, strip. -/
def cleanSnippet (x : Option String) : String :=
  String.mk (pyStrip (x.getD "").data)

/-! ### the cleaning pipeline `main` (clean_data.py lines 136–204) -/

/-- One row of the input CSV, read with `dtype=str`: every cell is text or
missing. -/
structure RawRow where
  title : Option String
  url : Option String
  price_raw : Option String
  price_vnd : Option String
  location : Option String
  area_m2 : Option String
  snippet : Option String
deriving DecidableEq

/-- One row of the cleaned output, the columns of `out_cols`
(lines 188–191). -/
structure CleanRow where
  title : String
  url : Option String
  price_raw_orig : Option String
  price_million_final : Option ℚ
  price_billion : Option ℚ
  price_vnd_original : Option ℚ
  location : Option String
  district : Option String
  area_m2 : Option ℚ
  snippet : String
deriving DecidableEq

/-- The per-row work of `main` (lines 151–185): parse the price (an exception
raised by the parser propagates out of the column `map` and aborts the run),
fall back to `price_vnd` when the parse yielded no value (lines 169–170),
derive `price_billion` from the parser result alone (line 156), clean
location/district/area/title/snippet. -/
def rowClean (r : RawRow) : Except String CleanRow :=
  match parse_price_to_million r.price_raw with
  | .error e => .error e
  | .ok pm =>
    .ok {
      title := cleanTitle r.title
      url := r.url
      price_raw_orig := r.price_raw
      price_million_final := match pm with | some v => some v | none => safe_float r.price_vnd
      price_billion := pm.map fun v => v / 1000
      price_vnd_original := safe_float r.price_vnd
      location := clean_location r.location
      district := extract_district (clean_location r.location)
      area_m2 := cleanArea r.area_m2
      snippet := cleanSnippet r.snippet }

/-- Lines 144–148, `df.drop_duplicates(subset=['url'])` with the default
`keep='first'`: keep a row iff its url was not seen earlier (missing urls
count as equal). -/
def dedupGo (seen : List (Option String)) : List RawRow → List RawRow
  | [] => []
  | r :: rs =>
    if r.url ∈ seen then dedupGo seen rs else r :: dedupGo (r.url :: seen) rs

/-- Deduplication by url, first occurrence kept. -/
def dedupByUrl (rows : List RawRow) : List RawRow := dedupGo [] rows

/-- Insertion into a sorted list of rationals. -/
def insertSorted (x : ℚ) : List ℚ → List ℚ
  | [] => [x]
  | y :: ys => if x ≤ y then x :: y :: ys else y :: insertSorted x ys

/-- Insertion sort, enough to define the median. -/
def sortQ (l : List ℚ) : List ℚ := l.foldr insertSorted []

/-- Line 200, `Series.median()` with the default `skipna`: the middle of the
sorted present values, or the mean of the two middles; no value on an
all-missing column. -/
def medianQ (l : List ℚ) : Option ℚ :=
  if l.isEmpty then none
  else
    let s := sortQ l
    let n := s.length
    if n % 2 = 1 then some (s.getD (n / 2) 0)
    else some ((s.getD (n / 2 - 1) 0 + s.getD (n / 2) 0) / 2)

/-- Row-by-row cleaning of the whole table, left to right; the first raised
exception aborts, as an exception in a pandas column `map` does. -/
def mapRows : List RawRow → Except String (List CleanRow)
  | [] => .ok []
  | r :: rs =>
    match rowClean r with
    | .error e => .error e
    | .ok c =>
      match mapRows rs with
      | .error e => .error e
      | .ok cs => .ok (c :: cs)

/-- `main` (lines 136–204) up to the two CSV writes: deduplicate by url,
clean each row, and produce the cleaned table and the median-imputed copy
(lines 199–202, `fillna` with the median of the present areas; filling with
NaN — the all-missing median — changes nothing). -/
def mainClean (rows : List RawRow) : Except String (List CleanRow × List CleanRow) :=
  match mapRows (dedupByUrl rows) with
  | .error e => .error e
  | .ok cleaned =>
    .ok (cleaned, cleaned.map fun c =>
      { c with area_m2 :=
          match c.area_m2 with
          | some a => some a
          | none => medianQ (cleaned.filterMap fun c => c.area_m2) })

/-! ### The claim-side reading of `extract_district` (for C6) -/

/-- Case-insensitive substring occurrence, the claim's notion of "an
administrative keyword is found case-insensitively". -/
def containsCI (hay kw : List Char) : Bool := containsSub (pyLower hay) (pyLower kw)

/-- The three administrative keywords the specification names:
"Quận", "Huyện", "Thị xã". -/
def specKeywords : List (List Char) :=
  [['Q', 'u', 'ậ', 'n'], ['H', 'u', 'y', 'ệ', 'n'], ['T', 'h', 'ị', ' ', 'x', 'ã']]

/-- No spec keyword occurs anywhere in the text, even case-insensitively. -/
def noSpecKeyword (hay : List Char) : Bool :=
  specKeywords.all fun kw => !containsCI hay kw



/-! ### Supporting lemmas about the price parser -/

theorem ratOfToken_nonneg (t : List Char × List Char) : 0 ≤ ratOfToken t := by
  obtain ⟨d1, d2⟩ := t
  unfold ratOfToken
  split
  all_goals positivity

theorem extractNums_nonneg (raw : List Char) : ∀ x ∈ extractNums raw, 0 ≤ x := by
  intro x hx
  simp only [extractNums, List.mem_map] at hx
  obtain ⟨t, _, rfl⟩ := hx
  exact ratOfToken_nonneg t

theorem qmean_nonneg {l : List ℚ} (h : ∀ x ∈ l, 0 ≤ x) : 0 ≤ qmean l :=
  div_nonneg (List.sum_nonneg h) (by positivity)

/-- Branch analysis of the parser: a returned value is a mean, possibly
scaled by 1000. -/
theorem parsePriceStr_ok_some {s : String} {q : ℚ}
    (h : parsePriceStr s = .ok (some q)) :
    q = qmean (extractNums (normalizePrice (pyStrip s.data))) * 1000 ∨
    q = qmean (extractNums (normalizePrice (pyStrip s.data))) := by
  unfold parsePriceStr at h
  split at h
  · simp at h
  · split at h
    · simp at h
    · split at h
      · simp at h
      · split at h
        · left; simpa using h.symm
        · right; simpa using h.symm

/-- A value the parser returns is non-negative. -/
theorem parse_price_ok_nonneg {x : Option String} {q : ℚ}
    (h : parse_price_to_million x = .ok (some q)) : 0 ≤ q := by
  cases x with
  | none => simp [parse_price_to_million] at h
  | some s =>
    have hq := parsePriceStr_ok_some (s := s) h
    have hm : 0 ≤ qmean (extractNums (normalizePrice (pyStrip s.data))) :=
      qmean_nonneg (extractNums_nonneg _)
    rcases hq with rfl | rfl
    · nlinarith
    · exact hm



/-! ### Claims C1–C5: the price parser -/

/-- C1: the claim says every input containing a negotiable marker (such as
"Thỏa thuận") yields the absent sentinel; in the code, line 35 evaluates
`raw.pd.dropna(...)` on a `str`, so the marker branch raises
`AttributeError` instead of returning `None` — the parser errors on the
marker input. -/
theorem parse_price_negotiable_marker_raises :
    parse_price_to_million (some "Thỏa thuận") = .error "AttributeError" := by
  have hth : thoaMarker (pyLower (pyStrip "Thỏa thuận".data)) = true := by decide
  have hne : (pyStrip "Thỏa thuận".data).isEmpty = false := by decide
  simp only [parse_price_to_million, parsePriceStr, hth, hne, Bool.false_eq_true,
    if_false, if_true]

/-- C2: the claim says the parser always terminates normally with a value and
lets no exception propagate; on the input "Giá thỏa thuận" the marker branch
of line 35 raises `AttributeError`, so an exception does escape. -/
theorem parse_price_exception_escapes :
    parse_price_to_million (some "Giá thỏa thuận") = .error "AttributeError" := by
  have hth : thoaMarker (pyLower (pyStrip "Giá thỏa thuận".data)) = true := by decide
  have hne : (pyStrip "Giá thỏa thuận".data).isEmpty = false := by decide
  simp only [parse_price_to_million, parsePriceStr, hth, hne, Bool.false_eq_true,
    if_false, if_true]

/-- C3: the claim says every input yields a returned value that is absent or
a non-negative finite number; on "Thỏa thuận" the parser raises instead of
returning any value at all (the non-crashing branches do return only absent
or non-negative values, `parse_price_ok_nonneg`). -/
theorem parse_price_thoa_returns_no_value :
    (parse_price_to_million (some "Thỏa thuận")).isOk = false := by
  have hth : thoaMarker (pyLower (pyStrip "Thỏa thuận".data)) = true := by decide
  have hne : (pyStrip "Thỏa thuận".data).isEmpty = false := by decide
  simp only [parse_price_to_million, parsePriceStr, hth, hne, Bool.false_eq_true,
    if_false, if_true]
  rfl

/-- C4: the three numeric examples of the specification:
`parse_price("58 Triệu") = 58.0`, `parse_price("12,5 Tỷ") = 12500.0`, and
`parse_price("5 - 5,2 Tỷ") = mean(5, 5.2) × 1000 = 5100.0`. -/
theorem parse_price_spec_examples :
    parse_price_to_million (some "58 Triệu") = .ok (some 58) ∧
    parse_price_to_million (some "12,5 Tỷ") = .ok (some 12500) ∧
    parse_price_to_million (some "5 - 5,2 Tỷ") = .ok (some 5100) := by
  refine ⟨?_, ?_, ?_⟩
  · have htok : extractTokens (normalizePrice (pyStrip "58 Triệu".data))
        = [(['5', '8'], [])] := by decide
    have hdet : detectUnit (pyLower (pyStrip "58 Triệu".data)) = some .trieu := by decide
    have hth : thoaMarker (pyLower (pyStrip "58 Triệu".data)) = false := by decide
    have hne : (pyStrip "58 Triệu".data).isEmpty = false := by decide
    have hd : digitsToNat ['5', '8'] = 58 := by decide
    simp only [parse_price_to_million, parsePriceStr, extractNums, htok, hdet, hth, hne,
      Bool.false_eq_true, if_false, List.map_cons, List.map_nil, List.isEmpty_cons,
      Option.getD_some, ratOfToken, List.isEmpty_nil, hd]
    norm_num [qmean]
  · have htok : extractTokens (normalizePrice (pyStrip "12,5 Tỷ".data))
        = [(['1', '2'], ['5'])] := by decide
    have hdet : detectUnit (pyLower (pyStrip "12,5 Tỷ".data)) = some .ty := by decide
    have hth : thoaMarker (pyLower (pyStrip "12,5 Tỷ".data)) = false := by decide
    have hne : (pyStrip "12,5 Tỷ".data).isEmpty = false := by decide
    have hd1 : digitsToNat ['1', '2'] = 12 := by decide
    have hd2 : digitsToNat ['5'] = 5 := by decide
    simp only [parse_price_to_million, parsePriceStr, extractNums, htok, hdet, hth, hne,
      Bool.false_eq_true, if_false, List.map_cons, List.map_nil, List.isEmpty_cons,
      Option.getD_some, ratOfToken, List.isEmpty_nil, hd1, hd2]
    norm_num [qmean]
  · have htok : extractTokens (normalizePrice (pyStrip "5 - 5,2 Tỷ".data))
        = [(['5'], []), (['5'], ['2'])] := by decide
    have hdet : detectUnit (pyLower (pyStrip "5 - 5,2 Tỷ".data)) = some .ty := by decide
    have hth : thoaMarker (pyLower (pyStrip "5 - 5,2 Tỷ".data)) = false := by decide
    have hne : (pyStrip "5 - 5,2 Tỷ".data).isEmpty = false := by decide
    have hd1 : digitsToNat ['5'] = 5 := by decide
    have hd2 : digitsToNat ['2'] = 2 := by decide
    simp only [parse_price_to_million, parsePriceStr, extractNums, htok, hdet, hth, hne,
      Bool.false_eq_true, if_false, List.map_cons, List.map_nil, List.isEmpty_cons,
      Option.getD_some, ratOfToken, List.isEmpty_nil, hd1, hd2]
    norm_num [qmean]

/-- C5: when no unit word is detected (neither at lines 45–49 nor by the
re-scan of lines 80–83), at least one number was extracted, no extracted
number exceeds 1000, and the standalone-"t"/"ty" heuristic of line 90 does
not apply, the parser defaults to the billion unit: the result is the mean
of the numbers times 1000. -/
theorem parse_price_default_unit_billion (s : String)
    (hth : thoaMarker (pyLower (pyStrip s.data)) = false)
    (hdet : detectUnit (pyLower (pyStrip s.data)) = none)
    (hres : rescanUnit (pyLower (pyStrip s.data)) = none)
    (hne : extractNums (normalizePrice (pyStrip s.data)) ≠ [])
    (hle : ∀ x ∈ extractNums (normalizePrice (pyStrip s.data)), x ≤ 1000)
    (hb : (((extractNums (normalizePrice (pyStrip s.data))).any fun x =>
        decide (x < (100 : ℚ))) && standaloneT (pyLower (pyStrip s.data))) = false) :
    parse_price_to_million (some s)
      = .ok (some (qmean (extractNums (normalizePrice (pyStrip s.data))) * 1000)) := by
  have hraw : (pyStrip s.data).isEmpty = false := by
    cases hr : pyStrip s.data with
    | nil => exact absurd (by rw [hr]; rfl) hne
    | cons a l => rfl
  have hni : (extractNums (normalizePrice (pyStrip s.data))).isEmpty = false := by
    cases hx : extractNums (normalizePrice (pyStrip s.data)) with
    | nil => exact absurd hx hne
    | cons a l => rfl
  have h1 : ((extractNums (normalizePrice (pyStrip s.data))).any fun x =>
      decide ((1000 : ℚ) < x)) = false := by
    rw [List.any_eq_false]
    intro x hx
    simpa using not_lt.2 (hle x hx)
  have h2 : ((extractNums (normalizePrice (pyStrip s.data))).any fun x =>
      decide (x ≤ (1000 : ℚ))) = true := by
    rw [List.any_eq_true]
    obtain ⟨x, hx⟩ := List.exists_mem_of_ne_nil _ hne
    exact ⟨x, hx, by simpa using hle x hx⟩
  have hu : inferUnit (pyLower (pyStrip s.data))
      (extractNums (normalizePrice (pyStrip s.data))) = .ty := by
    unfold inferUnit
    rw [hres, h1, hb, h2]
    rfl
  simp only [parse_price_to_million, parsePriceStr, hraw, hth, hni, Bool.false_eq_true,
    if_false, hdet, Option.getD_none, hu]

/-- Witness for C5 at the concrete input "500": no unit word, one extracted
number 500 ≤ 1000, heuristic (b) inapplicable, so the parser returns
500 × 1000 = 500000 million-units. -/
theorem parse_price_default_unit_billion_witness :
    parse_price_to_million (some "500") = .ok (some 500000) := by
  have htok : extractTokens (normalizePrice (pyStrip "500".data))
      = [(['5', '0', '0'], [])] := by decide
  have hd : digitsToNat ['5', '0', '0'] = 500 := by decide
  have hnums : extractNums (normalizePrice (pyStrip "500".data)) = [(500 : ℚ)] := by
    simp only [extractNums, htok, List.map_cons, List.map_nil, ratOfToken,
      List.isEmpty_nil, if_true, hd]
    norm_num
  have h := parse_price_default_unit_billion "500"
    (by decide) (by decide) (by decide)
    (by rw [hnums]; simp)
    (by rw [hnums]; intro x hx; simp only [List.mem_singleton] at hx; subst hx; norm_num)
    (by rw [hnums]
        have hlt : (decide ((500 : ℚ) < 100)) = false := by decide
        simp only [List.any_cons, List.any_nil, hlt, Bool.or_false, Bool.false_and])
  rw [h, hnums]
  have : qmean [(500 : ℚ)] * 1000 = 500000 := by
    norm_num [qmean]
  rw [this]



/-! ### Claim C6: `extract_district` -/

/-- The scan of `searchAdmin` finds nothing iff the keyword-plus-name pattern
matches at no position of the text. -/
theorem searchAdmin_none_iff (cs : List Char) :
    searchAdmin cs = none ↔ ∀ i, matchKwAt (cs.drop i) districtKeywords = none := by
  induction cs with
  | nil =>
    simp only [searchAdmin, List.drop_nil, true_iff]
    intro i
    decide
  | cons c rest ih =>
    rw [searchAdmin]
    cases hm : matchKwAt (c :: rest) districtKeywords with
    | some m =>
      simp only [reduceCtorEq, false_iff, not_forall]
      exact ⟨0, by simpa using hm ▸ (by simp)⟩
    | none =>
      simp only [ih]
      constructor
      · intro h i
        cases i with
        | zero => simpa using hm
        | succ n => simpa using h n
      · intro h i
        have := h (i + 1)
        simpa using this

/-- C6 counterexample: on "A, Huyen B" none of the three administrative
keywords the claim names ("Quận", "Huyện", "Thị xã") occurs even
case-insensitively, and the text contains a comma, so the claim requires the
trimmed text before the first comma, "A"; the code instead matches the
ASCII alternative "Huyen" of its regex and returns "Huyen B". -/
theorem extract_district_ascii_variant :
    extract_district (some "A, Huyen B") = some "Huyen B" ∧
    noSpecKeyword "A, Huyen B".data = true ∧
    "A, Huyen B".data.contains ',' = true ∧
    String.mk (pyStrip ("A, Huyen B".data.takeWhile fun c => c != ',')) = "A" ∧
    ("Huyen B" : String) ≠ "A" := by
  refine ⟨by decide, by decide, by decide, by decide, by decide⟩

/-- C6 amended: for every string input, `extract_district` returns the
stripped full "keyword + whitespace + name" match when the pattern of the
source — the keywords "Quận" (also in decomposed spelling), "Qun"/"Qn",
"Huyện", "Huyen", "Thị xã", "Thi xa", case-insensitively, followed by
whitespace and a name running to the next comma or line break — occurs
anywhere (`searchAdmin`); otherwise the trimmed substring before the first
comma when the text contains a comma; otherwise the whole trimmed text.
In particular the two examples of the specification hold. -/
theorem extract_district_description (s : String) :
    (∀ m, searchAdmin s.data = some m →
      extract_district (some s) = some (String.mk (pyStrip m))) ∧
    (searchAdmin s.data = none → s.data.contains ',' = true →
      extract_district (some s)
        = some (String.mk (pyStrip (s.data.takeWhile fun c => c != ',')))) ∧
    (searchAdmin s.data = none → s.data.contains ',' = false →
      extract_district (some s) = some (String.mk (pyStrip s.data))) ∧
    extract_district (some "Quận Ba Đình, Hà Nội") = some "Quận Ba Đình" ∧
    extract_district (some "Số 10, phố ABC, Hà Nội") = some "Số 10" := by
  refine ⟨?_, ?_, ?_, by decide, by decide⟩
  · intro m hm
    simp only [extract_district, hm]
  · intro hm hc
    simp only [extract_district, hm, hc, if_true]
  · intro hm hc
    simp only [extract_district, hm, hc, Bool.false_eq_true, if_false]

/-- Witness for C6 at "Quận Ba Đình, Hà Nội": the pattern matches the span
"Quận Ba Đình", which stripped is the returned district. -/
theorem extract_district_description_witness :
    extract_district (some "Quận Ba Đình, Hà Nội") = some "Quận Ba Đình" := by
  have h := (extract_district_description "Quận Ba Đình, Hà Nội").1
    ['Q', 'u', 'ậ', 'n', ' ', 'B', 'a', ' ', 'Đ', 'ì', 'n', 'h'] (by decide)
  rw [h]
  decide



/-! ### Claim C7: deduplication by url -/

theorem dedupGo_filter (u : Option String) :
    ∀ (rows : List RawRow) (seen : List (Option String)),
      (dedupGo seen rows).filter (fun r => r.url == u)
        = if u ∈ seen then [] else (rows.filter fun r => r.url == u).take 1 := by
  intro rows
  induction rows with
  | nil =>
    intro seen
    simp [dedupGo]
  | cons r rs ih =>
    intro seen
    rw [dedupGo]
    by_cases hs : r.url ∈ seen
    · rw [if_pos hs, ih]
      by_cases hu : u ∈ seen
      · simp [hu]
      · have hne : (r.url == u) = false :=
          beq_eq_false_iff_ne.2 fun he => hu (he ▸ hs)
        simp [hu, List.filter_cons, hne]
    · rw [if_neg hs, List.filter_cons, List.filter_cons]
      by_cases hru : r.url = u
      · subst hru
        simp only [beq_self_eq_true, if_true]
        rw [ih]
        have hmem : r.url ∈ r.url :: seen := List.mem_cons_self _ _
        rw [if_pos hmem, if_neg hs]
        simp
      · have hF : (r.url == u) = false := beq_eq_false_iff_ne.2 hru
        rw [hF]
        simp only [Bool.false_eq_true, if_false]
        rw [ih]
        have hiff : (u ∈ r.url :: seen) ↔ (u ∈ seen) := by
          simp only [List.mem_cons, or_iff_right_iff_imp]
          intro he
          exact absurd he.symm hru
        by_cases hu : u ∈ seen
        · rw [if_pos (hiff.2 hu), if_pos hu]
        · rw [if_neg (fun hx => hu (hiff.1 hx)), if_neg hu]

/-- Row cleaning leaves the url column unchanged. -/
theorem rowClean_url {r : RawRow} {c : CleanRow} (h : rowClean r = .ok c) :
    c.url = r.url := by
  unfold rowClean at h
  cases hp : parse_price_to_million r.price_raw with
  | error e => rw [hp] at h; cases h
  | ok pm => rw [hp] at h; cases h; rfl

theorem mapRows_length : ∀ {l : List RawRow} {out : List CleanRow},
    mapRows l = .ok out → out.length = l.length := by
  intro l
  induction l with
  | nil => intro out h; cases h; rfl
  | cons r rs ih =>
    intro out h
    rw [mapRows] at h
    cases hr : rowClean r with
    | error e => rw [hr] at h; cases h
    | ok c =>
      rw [hr] at h
      cases hm : mapRows rs with
      | error e => rw [hm] at h; cases h
      | ok cs => rw [hm] at h; cases h; simp [ih hm]

/-- Row cleaning commutes with filtering on a url key. -/
theorem mapRows_filter_url (u : Option String) :
    ∀ {l : List RawRow} {out : List CleanRow}, mapRows l = .ok out →
      mapRows (l.filter fun r => r.url == u) = .ok (out.filter fun c => c.url == u) := by
  intro l
  induction l with
  | nil => intro out h; cases h; rfl
  | cons r rs ih =>
    intro out h
    rw [mapRows] at h
    cases hr : rowClean r with
    | error e => rw [hr] at h; cases h
    | ok c =>
      rw [hr] at h
      cases hm : mapRows rs with
      | error e => rw [hm] at h; cases h
      | ok cs =>
        rw [hm] at h
        cases h
        have hurl : c.url = r.url := rowClean_url hr
        rw [List.filter_cons, List.filter_cons]
        by_cases hb : (r.url == u) = true
        · rw [if_pos hb, if_pos (by rw [hurl]; exact hb)]
          rw [mapRows, hr, ih hm]
        · rw [if_neg hb, if_neg (by rw [hurl]; exact hb)]
          exact ih hm

/-- Destructuring a successful `mainClean` run. -/
theorem mainClean_ok {rows : List RawRow} {out imp : List CleanRow}
    (h : mainClean rows = .ok (out, imp)) :
    mapRows (dedupByUrl rows) = .ok out ∧
    imp = out.map (fun c =>
      { c with area_m2 :=
          match c.area_m2 with
          | some a => some a
          | none => medianQ (out.filterMap fun c => c.area_m2) }) := by
  unfold mainClean at h
  cases hm : mapRows (dedupByUrl rows) with
  | error e => rw [hm] at h; cases h
  | ok cleaned => rw [hm] at h; cases h; exact ⟨rfl, rfl⟩

/-- C7: in a successful cleaning run the output contains exactly one row per
present url key — `min count 1` — and that row is the cleaned image of the
first input row carrying the key: later duplicates are dropped
(lines 144–148). -/
theorem clean_output_unique_url (rows : List RawRow) (out imp : List CleanRow)
    (u : Option String) (h : mainClean rows = .ok (out, imp)) :
    (out.filter fun c => c.url == u).length
        = min ((rows.filter fun r => r.url == u).length) 1 ∧
    mapRows ((rows.filter fun r => r.url == u).take 1)
        = .ok (out.filter fun c => c.url == u) := by
  obtain ⟨hmap, -⟩ := mainClean_ok h
  have hd : (dedupByUrl rows).filter (fun r => r.url == u)
      = (rows.filter fun r => r.url == u).take 1 := by
    simpa [dedupByUrl] using dedupGo_filter u rows []
  have hf := mapRows_filter_url u hmap
  rw [hd] at hf
  refine ⟨?_, hf⟩
  have hl := mapRows_length hf
  rw [hl, List.length_take]
  omega

def rawU : RawRow :=
  { title := none, url := some "u", price_raw := none, price_vnd := none,
    location := none, area_m2 := none, snippet := none }

def rawV : RawRow := { rawU with url := some "v" }

/-- Witness for C7 on a three-row table whose first and third rows share a
url: the cleaned output keeps exactly one row with that url. -/
theorem clean_output_unique_url_witness :
    ((mainClean [rawU, rawV, rawU]).map fun p =>
      (p.1.filter fun c => c.url == some "u").length) = .ok 1 := by
  rcases hm : mainClean [rawU, rawV, rawU] with e | ⟨out, imp⟩
  · have hok : (mainClean [rawU, rawV, rawU]).isOk = true := by decide
    rw [hm] at hok
    simp [Except.isOk, Except.toBool] at hok
  · have h := (clean_output_unique_url [rawU, rawV, rawU] out imp (some "u") hm).1
    have hcount : ([rawU, rawV, rawU].filter fun r => r.url == some "u").length = 2 := by
      decide
    rw [hcount] at h
    simp only [Except.map, h]
    rfl



/-! ### Claim C8: the area range invariant -/

theorem mapRows_mem : ∀ {l : List RawRow} {out : List CleanRow},
    mapRows l = .ok out → ∀ c ∈ out, ∃ r ∈ l, rowClean r = .ok c := by
  intro l
  induction l with
  | nil => intro out h c hc; cases h; simp at hc
  | cons r rs ih =>
    intro out h c hc
    rw [mapRows] at h
    cases hr : rowClean r with
    | error e => rw [hr] at h; cases h
    | ok c0 =>
      rw [hr] at h
      cases hm : mapRows rs with
      | error e => rw [hm] at h; cases h
      | ok cs =>
        rw [hm] at h
        cases h
        rcases List.mem_cons.1 hc with rfl | hc2
        · exact ⟨r, List.mem_cons_self _ _, hr⟩
        · obtain ⟨r2, hr2, hrc2⟩ := ih hm c hc2
          exact ⟨r2, List.mem_cons_of_mem _ hr2, hrc2⟩

/-- Row cleaning stores exactly the range-checked area. -/
theorem rowClean_area {r : RawRow} {c : CleanRow} (h : rowClean r = .ok c) :
    c.area_m2 = cleanArea r.area_m2 := by
  unfold rowClean at h
  cases hp : parse_price_to_million r.price_raw with
  | error e => rw [hp] at h; cases h
  | ok pm => rw [hp] at h; cases h; rfl

/-- The range-checked area is absent or strictly within (0, 2000]. -/
theorem cleanArea_range (a : Option String) :
    cleanArea a = none ∨ ∃ q, cleanArea a = some q ∧ 0 < q ∧ q ≤ 2000 := by
  cases hp : areaParse a with
  | none => exact Or.inl (by simp only [cleanArea, hp])
  | some q =>
    by_cases hq : q ≤ 0 ∨ 2000 < q
    · exact Or.inl (by simp only [cleanArea, hp]; rw [if_pos hq])
    · have hb := hq
      push_neg at hb
      exact Or.inr ⟨q, by simp only [cleanArea, hp]; rw [if_neg hq], hb.1, hb.2⟩

/-- C8: in a successful cleaning run every output area is absent or strictly
within (0, 2000]; the per-row transform blanks an unparsable area and an
out-of-range parsed area, keeps an in-range parsed area unchanged, and is
exactly what every cleaned row stores (lines 173–175). -/
theorem clean_output_area_range (rows : List RawRow) (out imp : List CleanRow)
    (h : mainClean rows = .ok (out, imp)) :
    (∀ c ∈ out, c.area_m2 = none ∨ ∃ q, c.area_m2 = some q ∧ 0 < q ∧ q ≤ 2000) ∧
    (∀ a : Option String,
      (areaParse a = none → cleanArea a = none) ∧
      ∀ q, areaParse a = some q →
        ((q ≤ 0 ∨ 2000 < q) → cleanArea a = none) ∧
        (0 < q → q ≤ 2000 → cleanArea a = some q)) ∧
    (∀ r ∈ dedupByUrl rows, ∀ c, rowClean r = .ok c →
      c.area_m2 = cleanArea r.area_m2) := by
  refine ⟨?_, ?_, ?_⟩
  · intro c hc
    obtain ⟨r, hr, hrc⟩ := mapRows_mem (mainClean_ok h).1 c hc
    rw [rowClean_area hrc]
    exact cleanArea_range r.area_m2
  · intro a
    constructor
    · intro hp
      simp only [cleanArea, hp]
    · intro q hp
      constructor
      · intro hout
        simp only [cleanArea, hp]
        rw [if_pos hout]
      · intro h1 h2
        simp only [cleanArea, hp]
        rw [if_neg (not_or.2 ⟨not_le.2 h1, not_lt.2 h2⟩)]
  · intro r _ c hc
    exact rowClean_area hc

/-- Witness for C8: an over-range area and a negative area become absent, an
in-range area is kept. -/
theorem clean_output_area_range_witness :
    cleanArea (some "2500") = none ∧ cleanArea (some "-5") = none ∧
    cleanArea (some "70") = some 70 := by
  have h := (clean_output_area_range [] [] [] rfl).2.1
  refine ⟨?_, ?_, ?_⟩
  · exact ((h (some "2500")).2 2500 (by decide)).1 (by norm_num)
  · exact ((h (some "-5")).2 (-5) (by decide)).1 (by norm_num)
  · exact ((h (some "70")).2 70 (by decide)).2 (by norm_num) (by norm_num)

/-! ### Claim C9: median imputation of the area -/

def rawArea50 : RawRow := { rawU with url := some "a", area_m2 := some "50" }

def rawAreaBad : RawRow := { rawU with url := some "b", area_m2 := some "abc" }

/-- C9 counterexample: a one-row table whose only area is unparsable.  The
cleaned area is absent, the median is taken over no present values, and the
imputed output still has an absent area — "area_m2 is never absent in the
imputed output" fails. -/
theorem imputed_area_absent_when_no_data :
    ((mainClean [rawAreaBad]).map fun p => p.2.map fun c => c.area_m2)
      = .ok [none] := by decide

theorem mem_zip_map {α β : Type} (f : α → β) :
    ∀ (l : List α) (p : α × β), p ∈ l.zip (l.map f) → p.2 = f p.1 := by
  intro l
  induction l with
  | nil => intro p h; simp at h
  | cons a t ih =>
    intro p h
    rw [List.map_cons, List.zip_cons_cons] at h
    rcases List.mem_cons.1 h with rfl | h2
    · rfl
    · exact ih p h2

/-- C9 amended: in a successful run, rows with a present cleaned area keep it
in the imputed output, and — provided at least one cleaned area is present —
rows with an absent cleaned area receive the median of the present cleaned
areas, so no imputed area is absent (lines 199–204). -/
theorem imputed_area_median (rows : List RawRow) (out imp : List CleanRow)
    (h : mainClean rows = .ok (out, imp)) :
    imp.length = out.length ∧
    (∀ p ∈ out.zip imp,
      (∀ q, p.1.area_m2 = some q → p.2.area_m2 = some q) ∧
      (p.1.area_m2 = none →
        p.2.area_m2 = medianQ (out.filterMap fun c => c.area_m2))) ∧
    ((out.filterMap fun c => c.area_m2) ≠ [] → ∀ c ∈ imp, c.area_m2 ≠ none) := by
  obtain ⟨-, himp⟩ := mainClean_ok h
  subst himp
  refine ⟨by simp, ?_, ?_⟩
  · intro p hp
    have hf := mem_zip_map _ out p hp
    constructor
    · intro q hq
      rw [hf]
      simp only []
      rw [hq]
    · intro hq
      rw [hf]
      simp only []
      rw [hq]
  · intro hne c hc
    simp only [List.mem_map] at hc
    obtain ⟨c0, _, rfl⟩ := hc
    cases ha : c0.area_m2 with
    | some a => simp [ha]
    | none =>
      simp only [ha]
      have hie : (out.filterMap fun c => c.area_m2).isEmpty = false := by
        cases hx : out.filterMap fun c => c.area_m2 with
        | nil => exact absurd hx hne
        | cons y ys => rfl
      unfold medianQ
      rw [hie]
      simp only [Bool.false_eq_true, if_false]
      split
      · simp
      · simp

def cleanW1 : CleanRow :=
  { title := "nan", url := some "a", price_raw_orig := none,
    price_million_final := none, price_billion := none,
    price_vnd_original := none, location := none, district := none,
    area_m2 := some 50, snippet := "" }

def cleanW2 : CleanRow := { cleanW1 with url := some "b", area_m2 := none }

/-- Witness for C9 on a two-row table with one present area 50: the imputed
area of the absent row equals the median of the present areas. -/
theorem imputed_area_median_witness :
    ({ cleanW2 with area_m2 := some 50 } : CleanRow).area_m2
      = medianQ ([cleanW1, cleanW2].filterMap fun c => c.area_m2) := by
  have hm : mainClean [rawArea50, rawAreaBad]
      = .ok ([cleanW1, cleanW2], [cleanW1, { cleanW2 with area_m2 := some 50 }]) := by
    decide
  have h := (imputed_area_median _ _ _ hm).2.1
    (cleanW2, { cleanW2 with area_m2 := some 50 }) (by decide)
  exact h.2 (by decide)

/-! ### Claim C10: `price_billion` comes from the parser result only -/

/-- C10: when the parser returns the absent value but `price_vnd` parses as a
number `v`, the cleaned row has `price_million_final = v` (the fallback of
lines 169–170) while `price_billion` stays absent (line 156 derives it from
the parser result only), so `price_billion = price_million_final / 1000`
fails on such rows. -/
theorem price_billion_parser_only (r : RawRow) (c : CleanRow) (v : ℚ)
    (hc : rowClean r = .ok c)
    (hp : parse_price_to_million r.price_raw = .ok none)
    (hv : safe_float r.price_vnd = some v) :
    c.price_million_final = some v ∧ c.price_billion = none ∧
    c.price_billion ≠ c.price_million_final.map fun q => q / 1000 := by
  unfold rowClean at hc
  rw [hp] at hc
  cases hc
  refine ⟨by simp [hv], by simp, ?_⟩
  simp [hv]

def rawVnd : RawRow :=
  { rawU with url := some "x", price_raw := some "abc", price_vnd := some "2500" }

def cleanVnd : CleanRow :=
  { title := "nan", url := some "x", price_raw_orig := some "abc",
    price_million_final := some 2500, price_billion := none,
    price_vnd_original := some 2500, location := none, district := none,
    area_m2 := none, snippet := "" }

/-- Witness for C10 on a row whose price text "abc" yields no parsed price
but whose `price_vnd` is "2500". -/
theorem price_billion_parser_only_witness :
    cleanVnd.price_million_final = some 2500 ∧ cleanVnd.price_billion = none := by
  have h := price_billion_parser_only rawVnd cleanVnd 2500
    (by decide) (by decide) (by decide)
  exact ⟨h.1, h.2.1⟩


end Homedy
